import Mathlib

/-!
Verification of the match simulation and scoring engine of the Game Theory
Fishbowl repository (Iterated Prisoner's Dilemma).  The definitions below are
shallow embeddings of the engine code: the payoff rule, the iterated-match
runners, the classic and adaptive strategies, the post-match policy update,
the scheduler's pair selection and reset, and the tick-counter loop.
Randomness (Math.random draws) is made explicit as parameters: each sampled
move takes the uniform draw it is compared against, and the scheduler takes
the list of drawn indices.
-/

namespace Fishbowl

/-- A single round's choice: "C" or "D" in the source. -/
inductive Move
  | C
  | D
deriving DecidableEq, Repr

/-- The payoff constants, `const PD = { R: 3, T: 5, P: 1, S: 0 }`. -/
structure PayoffMatrix where
  R : ℕ
  T : ℕ
  P : ℕ
  S : ℕ
deriving DecidableEq, Repr

def PD : PayoffMatrix := { R := 3, T := 5, P := 1, S := 0 }

/-- `const ITERATED_LENGTH = 20`. -/
def ITERATED_LENGTH : ℕ := 20

/-- One round record from one side's perspective in the first engine variant
(part_000): `{ me, opp }`. -/
structure Rec0 where
  me : Move
  opp : Move
deriving DecidableEq, Repr

/-- `payoffFor(meMove, oppMove)` (part_000 lines 106-111): the if-chain over
the four move pairs, falling through to `PD.P`. -/
def payoffFor (meMove oppMove : Move) : ℕ :=
  if meMove = Move.C ∧ oppMove = Move.C then PD.R
  else if meMove = Move.C ∧ oppMove = Move.D then PD.S
  else if meMove = Move.D ∧ oppMove = Move.C then PD.T
  else PD.P

/-- A deterministic classic strategy of part_000: a function of the agent's
own current-match history. -/
abbrev Strategy0 := List Rec0 → Move

/-- The accumulating state of `runIteratedMatch` (part_000 lines 176-190):
`history` is side A's view, `historyB` side B's view, plus both totals. -/
structure MatchResult0 where
  history : List Rec0
  historyB : List Rec0
  scoreA : ℕ
  scoreB : ℕ
deriving DecidableEq, Repr

/-- One loop iteration of `runIteratedMatch`: both sides decide on their own
history, records are pushed to both views, payoffs accumulate. -/
def matchRound0 (fA fB : Strategy0) (s : MatchResult0) : MatchResult0 :=
  let aMove := fA s.history
  let bMove := fB s.historyB
  { history := s.history ++ [⟨aMove, bMove⟩]
    historyB := s.historyB ++ [⟨bMove, aMove⟩]
    scoreA := s.scoreA + payoffFor aMove bMove
    scoreB := s.scoreB + payoffFor bMove aMove }

def runMatchAux (fA fB : Strategy0) : ℕ → MatchResult0 → MatchResult0
  | 0, s => s
  | n + 1, s => runMatchAux fA fB n (matchRound0 fA fB s)

/-- `runIteratedMatch(A, B)` (part_000 lines 176-190) for two deterministic
classic strategies: ITERATED_LENGTH rounds from empty histories and zero
scores.  (For classic agents `decideMove` calls `agent.fn(history)`.) -/
def runIteratedMatch (fA fB : Strategy0) : MatchResult0 :=
  runMatchAux fA fB ITERATED_LENGTH ⟨[], [], 0, 0⟩

/-- `PAVLOV.fn` (part_000 lines 90-96): cooperate on an empty history;
repeat the previous own move after payoff R or T, otherwise switch. -/
def pavlovFn (history : List Rec0) : Move :=
  match history.getLast? with
  | none => Move.C
  | some last =>
    let pay := payoffFor last.me last.opp
    if pay = PD.R ∨ pay = PD.T then last.me
    else if last.me = Move.C then Move.D else Move.C

/-- One round record in the second engine variant (part_001/part_002):
`{ self, opponent, payoff }`. -/
structure Rec1 where
  self : Move
  opponent : Move
  payoff : ℕ
deriving DecidableEq, Repr

/-- A strategy in part_001/part_002 receives `(history, myHistory)`. -/
abbrev Strategy1 := List Rec1 → List Rec1 → Move

/-- `fn: (history) => "C"` of `C_ALWAYS` (the extra argument is ignored). -/
def alwaysCooperateFn : Strategy1 := fun _ _ => Move.C

/-- `fn: (history) => "D"` of `D_ALWAYS`. -/
def alwaysDefectFn : Strategy1 := fun _ _ => Move.D

/-- The inline payoff computation of `playGame` (part_001 lines 460-473):
the if-chain returning `(payoffA, payoffB)`, with the final else covering
mutual defection. -/
def payoffPair : Move → Move → ℕ × ℕ
  | Move.C, Move.C => (PD.R, PD.R)
  | Move.C, Move.D => (PD.S, PD.T)
  | Move.D, Move.C => (PD.T, PD.S)
  | Move.D, Move.D => (PD.P, PD.P)

/-- The accumulating state of `playGame` (part_001 lines 449-516): per-match
histories for both sides, both totals, and each agent's persistent
`myHistory` (also pushed each round). -/
structure GameState1 where
  historyA : List Rec1
  historyB : List Rec1
  scoreA : ℕ
  scoreB : ℕ
  myHistA : List Rec1
  myHistB : List Rec1
deriving DecidableEq, Repr

/-- One loop iteration of `playGame` for two classic agents (the adaptive
update hooks are guarded by `!agent.isClassic` and do not run here). -/
def gameRound (fA fB : Strategy1) (s : GameState1) : GameState1 :=
  let moveA := fA s.historyA s.myHistA
  let moveB := fB s.historyB s.myHistB
  let pays := payoffPair moveA moveB
  { historyA := s.historyA ++ [⟨moveA, moveB, pays.1⟩]
    historyB := s.historyB ++ [⟨moveB, moveA, pays.2⟩]
    scoreA := s.scoreA + pays.1
    scoreB := s.scoreB + pays.2
    myHistA := s.myHistA ++ [⟨moveA, moveB, pays.1⟩]
    myHistB := s.myHistB ++ [⟨moveB, moveA, pays.2⟩] }

def playGameAux (fA fB : Strategy1) : ℕ → GameState1 → GameState1
  | 0, s => s
  | n + 1, s => playGameAux fA fB n (gameRound fA fB s)

/-- `playGame(agentA, agentB)` (part_001 lines 449-516) between two classic
agents with the given incoming `myHistory` lists: ITERATED_LENGTH rounds from
empty per-match histories and zero scores. -/
def playGame (fA fB : Strategy1) (mA mB : List Rec1) : GameState1 :=
  playGameAux fA fB ITERATED_LENGTH ⟨[], [], 0, 0, mA, mB⟩

/-- The learned policy of an adaptive (ProbabilisticReinforcement) agent
(part_000 `createAdaptiveAgent`): `{ p_afterC, p_afterD }`. -/
structure Policy where
  p_afterC : ℚ
  p_afterD : ℚ
deriving DecidableEq, Repr

/-- The cooperation probability that `adaptiveDecision(agent, history)`
(part_000 lines 132-137) samples against: `p_afterC` on an empty history,
otherwise `p_afterC` or `p_afterD` keyed by `history[last].opp`. -/
def adaptiveProb (pol : Policy) (history : List Rec0) : ℚ :=
  match history.getLast? with
  | none => pol.p_afterC
  | some last => if last.opp = Move.C then pol.p_afterC else pol.p_afterD

/-- `adaptiveDecision` with the `Math.random()` draw explicit: the move is C
iff the uniform draw is below the selected probability. -/
def adaptiveDecision (pol : Policy) (history : List Rec0) (draw : ℚ) : Move :=
  if draw < adaptiveProb pol history then Move.C else Move.D

/-- The adaptive branch of `decideMove(agent, history, oppHistory)`
(part_000 lines 192-195) as invoked by `runIteratedMatch` (line 182): the
runner passes the deciding agent's own history and the opponent's history,
and `decideMove` hands `oppHistory` to `adaptiveDecision`. -/
def decideMoveAdaptive (pol : Policy) (_history oppHistory : List Rec0)
    (draw : ℚ) : Move :=
  adaptiveDecision pol oppHistory draw

/-- The probability this runner-side adaptive decision samples against. -/
def decideProbAdaptive (pol : Policy) (_history oppHistory : List Rec0) : ℚ :=
  adaptiveProb pol oppHistory

/-- The total payoff earned on the rounds of `matches` where the agent
played C (part_000 lines 140-153: `coopReward`). -/
def coopReward (ms : List Rec0) : ℕ :=
  ((ms.filter (fun r => r.me = Move.C)).map
    (fun r => payoffFor r.me r.opp)).sum

/-- The number of rounds where the agent played C (`coopCount`). -/
def coopCount (ms : List Rec0) : ℕ :=
  (ms.filter (fun r => r.me = Move.C)).length

/-- The total payoff earned on the rounds where the agent played D. -/
def defReward (ms : List Rec0) : ℕ :=
  ((ms.filter (fun r => ¬ r.me = Move.C)).map
    (fun r => payoffFor r.me r.opp)).sum

/-- The number of rounds where the agent played D (`defCount`). -/
def defCount (ms : List Rec0) : ℕ :=
  (ms.filter (fun r => ¬ r.me = Move.C)).length

/-- `avgC = coopCount ? coopReward / coopCount : 0` (part_000 line 154). -/
def avgC (ms : List Rec0) : ℚ :=
  if coopCount ms ≠ 0 then (coopReward ms : ℚ) / coopCount ms
  else 0

/-- `avgD = defCount ? defReward / defCount : 0` (part_000 line 155). -/
def avgD (ms : List Rec0) : ℚ :=
  if defCount ms ≠ 0 then (defReward ms : ℚ) / defCount ms
  else 0

/-- The nudge-and-clamp step of `adaptAgentAfterMatch` (part_000 lines
156-163): learning rate 0.06, the `p_afterD` nudge at 0.6 times the rate,
one-sided clamps at 0.98 and 0.02. -/
def nudgePolicy (pol : Policy) (ms : List Rec0) : Policy :=
  let aC := avgC ms
  let aD := avgD ms
  let lr : ℚ := 6 / 100
  if aC > aD then
    ⟨min (98 / 100) (pol.p_afterC + lr * (aC - aD)),
     min (98 / 100) (pol.p_afterD + lr * (aC - aD) * (6 / 10))⟩
  else if aD > aC then
    ⟨max (2 / 100) (pol.p_afterC - lr * (aD - aC)),
     max (2 / 100) (pol.p_afterD - lr * (aD - aC) * (6 / 10))⟩
  else pol

/-- The final jitter-and-reclamp of `adaptAgentAfterMatch` (part_000 lines
164-165): `min(0.99, max(0.01, p + (Math.random() - 0.5) * 0.02))`, with the
uniform draw `j` explicit. -/
def jitterClamp (p j : ℚ) : ℚ :=
  min (99 / 100) (max (1 / 100) (p + (j - 1 / 2) * (2 / 100)))

/-- `adaptAgentAfterMatch(agent, matches)` (part_000 lines 139-166) acting on
the policy, with the two jitter draws `j1 j2` explicit. -/
def adaptAgentAfterMatch (pol : Policy) (ms : List Rec0)
    (j1 j2 : ℚ) : Policy :=
  let nudged := nudgePolicy pol ms
  ⟨jitterClamp nudged.p_afterC j1, jitterClamp nudged.p_afterD j2⟩

/-- The rejection sampling of the second agent index (part_000 lines
383-384): `while (j === i) j = Math.floor(Math.random() * n)`, over the
explicit list of draw outcomes; `none` when the draws run out. -/
def pickSecond (i : ℕ) : List ℕ → Option ℕ
  | [] => none
  | d :: ds => if d = i then pickSecond i ds else some d

/-- The scheduler's index-pair selection (part_000 lines 382-384, equivalent
to the `!indices.includes(idx)` loop of part_001 lines 539-544 for the first
two kept draws): the first draw is taken as `i`, later draws are rejected
while equal to it. -/
def pickPair : List ℕ → Option (ℕ × ℕ)
  | [] => none
  | d :: ds => (pickSecond d ds).map (fun j => (d, j))

/-- A roster agent as the scheduler's reset sees it: a strategy-kind flag,
the cumulative score, and (for adaptive agents) the learned policy. -/
structure Agent0 where
  isClassic : Bool
  score : ℕ
  policy : Policy
deriving DecidableEq, Repr

/-- The reset performed when a run starts: `agents.map(a => ({ ...a,
score: 0 }))` (part_000 line 378; part_001 lines 526-531 likewise maps
`score: 0` over the roster). -/
def resetScores (l : List Agent0) : List Agent0 :=
  l.map (fun a => { a with score := 0 })

/-- A Q-learner state key (`getState`, part_001 lines 137-141): the
distinguished "start" key on an empty history, otherwise the opponent's
last up-to-3 moves. -/
inductive QState
  | start
  | recent (moves : List Move)
deriving DecidableEq, Repr

/-- `getState(history)` of the Q-learner. -/
def getState (history : List Rec1) : QState :=
  if history = [] then QState.start
  else QState.recent
    ((history.drop (history.length - 3)).map (fun h => h.opponent))

/-- The Q table: `qTable` maps string keys `state + "_" + action` to values;
absent keys read as 0 via `|| 0`. -/
def QTable := List ((QState × Move) × ℚ)

/-- A table read with the `|| 0` default. -/
def qLookup (t : QTable) (s : QState) (a : Move) : ℚ :=
  match t.find? (fun e => e.1 = (s, a)) with
  | some e => e.2
  | none => 0

/-- The exploitation branch of `Q_LEARNER.fn` (part_001 lines 131-135):
`qC > qD ? "C" : "D"`. -/
def qExploit (t : QTable) (s : QState) : Move :=
  if qLookup t s Move.C > qLookup t s Move.D then Move.C else Move.D

/-- The Meta-Strategist's four sub-strategies `["C", "D", "TFT", "FREQ"]`
(part_001 line 223). -/
inductive SubStrat
  | C
  | D
  | TFT
  | FREQ
deriving DecidableEq, Repr

def metaStrategies : List SubStrat := [SubStrat.C, SubStrat.D, SubStrat.TFT, SubStrat.FREQ]

/-- The Meta-Strategist's mutable state: running total payoff and round
count per sub-strategy, plus the currently selected sub-strategy
(part_001 lines 224-226). -/
structure MetaState where
  performance : SubStrat → ℚ
  counts : SubStrat → ℕ
  currentStrategy : SubStrat

/-- `this.performance[s] / this.counts[s]`. -/
def metaAvg (st : MetaState) (s : SubStrat) : ℚ :=
  st.performance s / (st.counts s : ℚ)

/-- The initial `bestPerf`: the current sub-strategy's average when it has
recorded rounds, else 0 (part_001 lines 231-232). -/
def avgOrZero (st : MetaState) (s : SubStrat) : ℚ :=
  if 0 < st.counts s then metaAvg st s else 0

/-- One iteration of the `for (let strategy of this.strategies)` loop
(part_001 lines 234-242): replace the best candidate when the sub-strategy
has recorded rounds and a strictly larger average. -/
def metaStep (st : MetaState) (best : SubStrat × ℚ) (s : SubStrat) : SubStrat × ℚ :=
  if 0 < st.counts s ∧ best.2 < metaAvg st s then (s, metaAvg st s) else best

/-- The sub-strategy the evaluation block selects, starting from the
current sub-strategy and its `bestPerf`. -/
def selectBest (st : MetaState) : SubStrat :=
  (metaStrategies.foldl (metaStep st)
    (st.currentStrategy, avgOrZero st st.currentStrategy)).1

/-- The `currentStrategy` after one `META_STRATEGY.fn` call with a history
of the given length (part_001 lines 228-244): the evaluation block runs only
when `history.length > 10 && history.length % 10 === 0`. -/
def metaNewStrategy (st : MetaState) (historyLen : ℕ) : SubStrat :=
  if 10 < historyLen ∧ historyLen % 10 = 0 then selectBest st
  else st.currentStrategy

/-- A concrete Meta-Strategist state: every sub-strategy has one recorded
round, sub-strategy D has total payoff 5 and the others 1, and the current
sub-strategy is TFT. -/
def metaDemo : MetaState :=
  ⟨fun s => if s = SubStrat.D then 5 else 1, fun _ => 1, SubStrat.TFT⟩

/-- The scheduler-loop counter state of `startSimulation` (part_001 lines
533-590, part_002 lines 708-770): the tick counter, the matches played so
far, and whether the loop is still live. -/
structure SimState where
  tick : ℕ
  matchesPlayed : ℕ
  running : Bool
deriving DecidableEq, Repr

def simInit : SimState := ⟨0, 0, true⟩

/-- One timer callback: while running, one match is played and
`currentTick++` executes; `if (currentTick > 500)` the interval is cleared
and `running` set false, after which callbacks do nothing. -/
def simTick (s : SimState) : SimState :=
  if s.running then
    { tick := s.tick + 1
      matchesPlayed := s.matchesPlayed + 1
      running := if s.tick + 1 > 500 then false else true }
  else s

/-- The simulation after `n` callbacks. -/
def simRun : ℕ → SimState
  | 0 => simInit
  | n + 1 => simTick (simRun n)

end Fishbowl

namespace Fishbowl

/-- C1: the payoff rule is the fixed matrix with R=3, T=5, P=1, S=0:
payoff(C,C)=R, payoff(C,D)=S, payoff(D,C)=T, payoff(D,D)=P, and hence
payoff(C,D) + payoff(D,C) = S + T. -/
theorem payoff_matrix_values :
    payoffFor Move.C Move.C = PD.R ∧
    payoffFor Move.C Move.D = PD.S ∧
    payoffFor Move.D Move.C = PD.T ∧
    payoffFor Move.D Move.D = PD.P ∧
    PD.R = 3 ∧ PD.T = 5 ∧ PD.P = 1 ∧ PD.S = 0 ∧
    payoffFor Move.C Move.D + payoffFor Move.D Move.C = PD.S + PD.T := by
  decide

/-- C2: a 20-round match of AlwaysCooperate (side A) against AlwaysDefect
(side B) returns scoreA = 0 and scoreB = 100, and each of the 20 round
records of A's history has selfMove = C, opponentMove = D and payoff = 0. -/
theorem coop_vs_defect_match_result :
    (playGame alwaysCooperateFn alwaysDefectFn [] []).scoreA = 0 ∧
    (playGame alwaysCooperateFn alwaysDefectFn [] []).scoreB = 100 ∧
    (playGame alwaysCooperateFn alwaysDefectFn [] []).historyA.length = 20 ∧
    ∀ rec ∈ (playGame alwaysCooperateFn alwaysDefectFn [] []).historyA,
      rec.self = Move.C ∧ rec.opponent = Move.D ∧ rec.payoff = 0 := by
  decide

/-- C5: a 20-round match of Pavlov against Pavlov is mutual cooperation in
every round, so both final scores equal 20 × R = 60. -/
theorem pavlov_vs_pavlov_mutual_cooperation :
    (runIteratedMatch pavlovFn pavlovFn).scoreA = 20 * PD.R ∧
    (runIteratedMatch pavlovFn pavlovFn).scoreB = 20 * PD.R ∧
    (runIteratedMatch pavlovFn pavlovFn).history.length = 20 ∧
    (runIteratedMatch pavlovFn pavlovFn).historyB.length = 20 ∧
    (∀ rec ∈ (runIteratedMatch pavlovFn pavlovFn).history,
      rec.me = Move.C ∧ rec.opp = Move.C) ∧
    (∀ rec ∈ (runIteratedMatch pavlovFn pavlovFn).historyB,
      rec.me = Move.C ∧ rec.opp = Move.C) := by
  decide

/-- C3: evaluation of the code at the failing input.  After one round in
which the adaptive agent played D and its opponent played C, the agent's own
history is `[⟨D, C⟩]` (so the opponent's previous move is C) and the
opponent's history is `[⟨C, D⟩]`.  With p_afterC = 0.9 and p_afterD = 0.1,
the runner-side decision samples against p_afterD = 0.1 — the probability
keyed by the agent's own previous move — and with draw 0.5 it returns D,
although 0.5 < p_afterC. -/
theorem adaptive_prob_keys_on_own_move :
    decideProbAdaptive ⟨9/10, 1/10⟩ [⟨Move.D, Move.C⟩] [⟨Move.C, Move.D⟩]
      = (1 : ℚ)/10 ∧
    ((([⟨Move.D, Move.C⟩] : List Rec0).getLast?.map Rec0.opp)
      = some Move.C) ∧
    decideMoveAdaptive ⟨9/10, 1/10⟩ [⟨Move.D, Move.C⟩] [⟨Move.C, Move.D⟩]
      (1/2) = Move.D ∧
    ((1 : ℚ)/2 < 9/10) := by
  have hprob : adaptiveProb ⟨9/10, 1/10⟩ [⟨Move.C, Move.D⟩] = (1 : ℚ)/10 := by
    simp [adaptiveProb]
  have hno : ¬ ((1 : ℚ)/2 < adaptiveProb ⟨9/10, 1/10⟩ [⟨Move.C, Move.D⟩]) := by
    rw [hprob]
    norm_num
  exact ⟨hprob, rfl, if_neg hno, by norm_num⟩

/-- The jitter-and-reclamp step always lands in [0.01, 0.99]. -/
theorem jitterClamp_bounds (p j : ℚ) :
    1/100 ≤ jitterClamp p j ∧ jitterClamp p j ≤ 99/100 :=
  ⟨le_min (by norm_num) (le_max_left _ _), min_le_left _ _⟩

/-- C6: for an adaptive agent whose two policy probabilities lie in
[0.01, 0.99], a single post-match update (nudge, clamp and jitter) leaves
both p_afterC and p_afterD in [0.01, 0.99]. -/
theorem adapt_update_preserves_bounds (pol : Policy) (ms : List Rec0)
    (j1 j2 : ℚ)
    (h1 : 1/100 ≤ pol.p_afterC ∧ pol.p_afterC ≤ 99/100)
    (h2 : 1/100 ≤ pol.p_afterD ∧ pol.p_afterD ≤ 99/100) :
    (1/100 ≤ (adaptAgentAfterMatch pol ms j1 j2).p_afterC ∧
      (adaptAgentAfterMatch pol ms j1 j2).p_afterC ≤ 99/100) ∧
    (1/100 ≤ (adaptAgentAfterMatch pol ms j1 j2).p_afterD ∧
      (adaptAgentAfterMatch pol ms j1 j2).p_afterD ≤ 99/100) :=
  ⟨jitterClamp_bounds _ _, jitterClamp_bounds _ _⟩

/-- C6 witness: the bounds hold for a concrete policy, match list and
jitter draws. -/
theorem adapt_update_preserves_bounds_witness :
    (1/100 ≤ (adaptAgentAfterMatch ⟨1/2, 1/2⟩ [⟨Move.D, Move.C⟩]
        (3/4) (1/4)).p_afterC ∧
      (adaptAgentAfterMatch ⟨1/2, 1/2⟩ [⟨Move.D, Move.C⟩]
        (3/4) (1/4)).p_afterC ≤ 99/100) ∧
    (1/100 ≤ (adaptAgentAfterMatch ⟨1/2, 1/2⟩ [⟨Move.D, Move.C⟩]
        (3/4) (1/4)).p_afterD ∧
      (adaptAgentAfterMatch ⟨1/2, 1/2⟩ [⟨Move.D, Move.C⟩]
        (3/4) (1/4)).p_afterD ≤ 99/100) :=
  adapt_update_preserves_bounds ⟨1/2, 1/2⟩ [⟨Move.D, Move.C⟩] (3/4) (1/4)
    (by norm_num) (by norm_num)

/-- The rejection loop only ever returns a draw different from `i`. -/
theorem pickSecond_ne (i : ℕ) (ds : List ℕ) (j : ℕ)
    (h : pickSecond i ds = some j) : j ≠ i := by
  induction ds with
  | nil => simp [pickSecond] at h
  | cons d ds ih =>
    by_cases hd : d = i
    · rw [pickSecond, if_pos hd] at h
      exact ih h
    · rw [pickSecond, if_neg hd] at h
      cases h
      exact hd

/-- C7: whenever the scheduler's pair selection returns a pair of agent
indices, the two indices are distinct, for any outcome of the random
draws. -/
theorem scheduler_picks_distinct (draws : List ℕ) (i j : ℕ)
    (h : pickPair draws = some (i, j)) : i ≠ j := by
  cases draws with
  | nil => simp [pickPair] at h
  | cons d ds =>
    rw [pickPair] at h
    cases hs : pickSecond d ds with
    | none => rw [hs] at h; cases h
    | some j' =>
      rw [hs, Option.map_some'] at h
      simp only [Option.some.injEq, Prod.mk.injEq] at h
      obtain ⟨h1, h2⟩ := h
      rw [← h1, ← h2]
      exact (pickSecond_ne d ds j' hs).symm

/-- C7 witness: the draws 2, 2, 5 select the pair (2, 5), and 2 ≠ 5. -/
theorem scheduler_picks_distinct_witness :
    pickPair [2, 2, 5] = some (2, 5) ∧ (2 : ℕ) ≠ 5 :=
  ⟨by decide, scheduler_picks_distinct [2, 2, 5] 2 5 (by decide)⟩

/-- C8: the reset run at simulation start sets every agent's cumulative
score to exactly 0, whatever its strategy kind and prior score. -/
theorem reset_zeroes_scores (l : List Agent0) (a : Agent0)
    (h : a ∈ resetScores l) : a.score = 0 := by
  simp only [resetScores, List.mem_map] at h
  obtain ⟨b, _, rfl⟩ := h
  rfl

/-- C8 witness: resetting a one-agent roster with score 57 yields the agent
with score 0. -/
theorem reset_zeroes_scores_witness :
    (⟨true, 0, ⟨1/2, 1/2⟩⟩ : Agent0) ∈
      resetScores [⟨true, 57, ⟨1/2, 1/2⟩⟩] ∧
    (⟨true, 0, ⟨1/2, 1/2⟩⟩ : Agent0).score = 0 :=
  ⟨by simp [resetScores],
   reset_zeroes_scores [⟨true, 57, ⟨1/2, 1/2⟩⟩] _ (by simp [resetScores])⟩

/-- C9: the Q-learner's exploitation branch returns COOPERATE exactly when
the stored value for (state, C) strictly exceeds the value for (state, D),
missing entries reading as 0; in every other case — ties included, hence at
every unseen state — it returns DEFECT. -/
theorem qlearner_exploit_rule (t : QTable) (s : QState) :
    (qExploit t s = Move.C ↔ qLookup t s Move.D < qLookup t s Move.C) ∧
    (qExploit t s = Move.D ↔ qLookup t s Move.C ≤ qLookup t s Move.D) := by
  unfold qExploit
  by_cases h : qLookup t s Move.D < qLookup t s Move.C
  · rw [if_pos h]
    constructor
    · exact ⟨fun _ => h, fun _ => rfl⟩
    · exact ⟨fun hc => absurd hc (by simp), fun hle => absurd h (not_lt.mpr hle)⟩
  · rw [if_neg h]
    constructor
    · exact ⟨fun hc => absurd hc (by simp), fun hlt => absurd hlt h⟩
    · exact ⟨fun _ => not_lt.mp h, fun _ => rfl⟩

/-- A live callback advances both counters and stays live while the new
tick count is at most 500. -/
theorem simTick_live (t m : ℕ) :
    simTick ⟨t, m, true⟩ = ⟨t + 1, m + 1, if t + 1 > 500 then false else true⟩ :=
  rfl

/-- A stopped loop no longer changes state. -/
theorem simTick_stopped (t m : ℕ) : simTick ⟨t, m, false⟩ = ⟨t, m, false⟩ :=
  rfl

/-- The closed form of the scheduler's counter loop: after `n` callbacks
the tick and match counters sit at `min n 501` and the loop is live exactly
while `n < 501`. -/
theorem simRun_closed (n : ℕ) :
    simRun n = ⟨min n 501, min n 501, decide (n < 501)⟩ := by
  induction n with
  | zero => rfl
  | succ n ih =>
    rw [simRun, ih]
    by_cases h : n < 501
    · rw [decide_eq_true h, simTick_live, min_eq_left (le_of_lt h)]
      by_cases h5 : n + 1 > 500
      · rw [if_pos h5, decide_eq_false (by omega : ¬ (n + 1 < 501)),
          min_eq_left (by omega : n + 1 ≤ 501)]
      · rw [if_neg h5, decide_eq_true (by omega : n + 1 < 501),
          min_eq_left (by omega : n + 1 ≤ 501)]
    · rw [decide_eq_false h, simTick_stopped,
        min_eq_right (by omega : (501 : ℕ) ≤ n),
        min_eq_right (by omega : (501 : ℕ) ≤ n + 1),
        decide_eq_false (by omega : ¬ (n + 1 < 501))]

/-- For a sub-strategy with recorded rounds, `avgOrZero` is its average. -/
theorem avgOrZero_of_pos (st : MetaState) (s : SubStrat)
    (h : 0 < st.counts s) : avgOrZero st s = metaAvg st s :=
  if_pos h

/-- The evaluation fold keeps a candidate whose stored score is its
`avgOrZero`, never decreases the stored score, and ends at or above the
average of every listed sub-strategy with recorded rounds. -/
theorem metaFold_spec (st : MetaState) (l : List SubStrat) :
    ∀ b : SubStrat × ℚ, b.2 = avgOrZero st b.1 →
      (l.foldl (metaStep st) b).2 = avgOrZero st (l.foldl (metaStep st) b).1 ∧
      b.2 ≤ (l.foldl (metaStep st) b).2 ∧
      ∀ s ∈ l, 0 < st.counts s →
        metaAvg st s ≤ (l.foldl (metaStep st) b).2 := by
  induction l with
  | nil =>
    intro b hb
    exact ⟨hb, le_refl _, by simp⟩
  | cons x xs ih =>
    intro b hb
    have hstep : (metaStep st b x).2 = avgOrZero st (metaStep st b x).1 := by
      by_cases hx : 0 < st.counts x ∧ b.2 < metaAvg st x
      · simp only [metaStep, if_pos hx]
        exact (avgOrZero_of_pos st x hx.1).symm
      · simp only [metaStep, if_neg hx]
        exact hb
    have hmono : b.2 ≤ (metaStep st b x).2 := by
      by_cases hx : 0 < st.counts x ∧ b.2 < metaAvg st x
      · simp only [metaStep, if_pos hx]
        exact le_of_lt hx.2
      · simp only [metaStep, if_neg hx]
        exact le_refl _
    have hxle : 0 < st.counts x → metaAvg st x ≤ (metaStep st b x).2 := by
      intro hc
      by_cases hx : 0 < st.counts x ∧ b.2 < metaAvg st x
      · simp only [metaStep, if_pos hx]
        exact le_refl _
      · simp only [metaStep, if_neg hx]
        push_neg at hx
        exact hx hc
    obtain ⟨h1, h2, h3⟩ := ih (metaStep st b x) hstep
    rw [List.foldl_cons]
    refine ⟨h1, le_trans hmono h2, ?_⟩
    intro s hs hc
    rcases List.mem_cons.mp hs with hsx | hmem
    · subst hsx
      exact le_trans (hxle hc) h2
    · exact h3 s hmem hc

/-- When no listed sub-strategy with recorded rounds strictly beats the
stored score, the evaluation fold keeps its candidate. -/
theorem metaFold_keep (st : MetaState) (b : SubStrat × ℚ) :
    ∀ l : List SubStrat,
      (∀ s ∈ l, 0 < st.counts s → metaAvg st s ≤ b.2) →
      l.foldl (metaStep st) b = b := by
  intro l
  induction l with
  | nil => intro _; rfl
  | cons x xs ih =>
    intro h
    rw [List.foldl_cons]
    have hx : metaStep st b x = b := by
      have hno : ¬ (0 < st.counts x ∧ b.2 < metaAvg st x) := by
        rintro ⟨hc, hlt⟩
        exact absurd hlt (not_lt.mpr (h x (List.mem_cons_self x xs) hc))
      simp only [metaStep, if_neg hno]
    rw [hx]
    exact ih (fun s hs hc => h s (List.mem_cons_of_mem x hs) hc)

/-- Whatever sub-strategy the evaluation block selects scores at least the
average of every sub-strategy with recorded rounds. -/
theorem selectBest_ge (st : MetaState) (s : SubStrat)
    (hc : 0 < st.counts s) :
    metaAvg st s ≤ avgOrZero st (selectBest st) := by
  obtain ⟨h1, _, h3⟩ := metaFold_spec st metaStrategies
    (st.currentStrategy, avgOrZero st st.currentStrategy) rfl
  have hs : s ∈ metaStrategies := by cases s <;> simp [metaStrategies]
  have hle := h3 s hs hc
  rw [h1] at hle
  exact hle

/-- When nothing with recorded rounds strictly beats the current
sub-strategy's score, the evaluation keeps the current sub-strategy. -/
theorem selectBest_keep (st : MetaState)
    (h : ∀ s, 0 < st.counts s →
      metaAvg st s ≤ avgOrZero st st.currentStrategy) :
    selectBest st = st.currentStrategy := by
  unfold selectBest
  rw [metaFold_keep st (st.currentStrategy, avgOrZero st st.currentStrategy)
    metaStrategies (fun s _ hc => h s hc)]

/-- C4 (amended): the Meta-Strategist re-evaluates only on round indices
that are multiples of 10 strictly greater than 10 (20, 30, ...); there the
new current sub-strategy scores at least the running average of every
sub-strategy with at least one recorded round, and when none strictly beats
the current one (ties included) the current sub-strategy is kept.  On every
other round index — round 10 included — currentStrategy is unchanged. -/
theorem meta_switch_rule (st : MetaState) (n : ℕ) :
    (¬ (10 < n ∧ n % 10 = 0) → metaNewStrategy st n = st.currentStrategy) ∧
    ((10 < n ∧ n % 10 = 0) →
      (∀ s, 0 < st.counts s →
        metaAvg st s ≤ avgOrZero st (metaNewStrategy st n)) ∧
      ((∀ s, 0 < st.counts s →
          metaAvg st s ≤ avgOrZero st st.currentStrategy) →
        metaNewStrategy st n = st.currentStrategy)) := by
  constructor
  · intro h
    rw [metaNewStrategy, if_neg h]
  · intro h
    rw [metaNewStrategy, if_pos h]
    exact ⟨fun s hc => selectBest_ge st s hc,
      fun hall => selectBest_keep st hall⟩

/-- C4 counterexample: at round index 10 — a positive multiple of 10 — with
the current sub-strategy TFT averaging 1 and sub-strategy D averaging 5
(both with recorded rounds), `currentStrategy` stays TFT: the evaluation is
skipped because the code requires `history.length > 10`. -/
theorem meta_no_switch_at_round_ten :
    metaNewStrategy metaDemo 10 = SubStrat.TFT ∧
    metaDemo.currentStrategy = SubStrat.TFT ∧
    (0 : ℕ) < 10 ∧ 10 % 10 = 0 ∧
    0 < metaDemo.counts SubStrat.D ∧
    metaAvg metaDemo SubStrat.TFT < metaAvg metaDemo SubStrat.D ∧
    SubStrat.D ≠ SubStrat.TFT := by
  refine ⟨?_, rfl, by norm_num, by norm_num, by norm_num [metaDemo], ?_,
    by decide⟩
  · rw [metaNewStrategy,
      if_neg (by omega : ¬ ((10 : ℕ) < 10 ∧ 10 % 10 = 0))]
    rfl
  · simp only [metaAvg, metaDemo,
      if_neg (by decide : ¬ (SubStrat.TFT = SubStrat.D)),
      if_pos (rfl : SubStrat.D = SubStrat.D)]
    norm_num

/-- C10: the simulation run is self-terminating: under any number of
scheduler callbacks at most 501 matches are played, and from the 501st
callback on the loop is stopped with exactly 501 matches played. -/
theorem simulation_self_terminating (n : ℕ) :
    (simRun n).matchesPlayed ≤ 501 ∧
    (simRun (501 + n)).running = false ∧
    (simRun (501 + n)).matchesPlayed = 501 := by
  simp only [simRun_closed]
  exact ⟨min_le_right _ _, decide_eq_false (by omega : ¬ (501 + n < 501)),
    min_eq_right (by omega : (501 : ℕ) ≤ 501 + n)⟩

end Fishbowl
